import Mathlib

/-!
# Verification of the rados-grace cluster grace-period coordinator

Shallow embedding of the grace-period coordinator of `src/support/rados_grace.c`
and the per-node recovery backend of `src/SAL/recovery/recovery_rados_cluster.c`.

The shared grace object consists of a data blob (normally 16 bytes holding the
two little-endian u64 epochs `C` and `R`) together with an omap of per-node
entries.  Each coordinator verb performs one read; on its success path it
builds at most one write op (a full 16-byte header rewrite and/or omap
set/remove operations) and commits it guarded by `assert_version`.  We model
the object as a byte list plus an association list, a verb as a `prepare`
phase computing the optional write op from the bytes read, and a commit phase
applying the write op.  Machine integers are `Nat` with explicit `% 2^64`
where the C code can overflow.
-/

/-- `2^64`, the modulus of the C `uint64_t` epoch fields. -/
def U64MOD : Nat := 2 ^ 64

/-- `UINT32_MAX`, the reserved nodeid value rejected by the single-node
wrappers `rados_grace_join` and `rados_grace_done`. -/
def UINT32MAX : Nat := 2 ^ 32 - 1

/-- `MAX_ITEMS` from `rados_grace.c`: the bound on omap keys fetched in one
read op.  A truncated omap listing (`more` flag set) yields `Corrupt`. -/
def MAX_ITEMS : Nat := 1024

/-- Error kinds surfaced by the coordinator, named after the spec's error
model.  `Corrupt` is `-ENOTRECOVERABLE`, `InvalidArgument` is `-EINVAL`,
`AlreadyExists` is `-EEXIST`. -/
inductive GErr where
  | Corrupt
  | InvalidArgument
  | AlreadyExists
deriving Repr, DecidableEq

/-- The shared grace object: `data` is the object's data bytes (each < 256),
`omap` the per-node key/value map represented as an association list whose
keys are the node identifiers and whose values are the opaque value bytes. -/
structure GObj where
  data : List Nat
  omap : List (String × List Nat)
deriving Repr, DecidableEq

/-- Little-endian byte rendering of the low `k` bytes of `n`
(`htole64` writes the 8 little-endian bytes of a `uint64_t`). -/
def leBytes : Nat → Nat → List Nat
  | 0, _ => []
  | k + 1, n => n % 256 :: leBytes k (n / 256)

/-- Value of a little-endian byte list (`le64toh` of the stored bytes). -/
def leVal (bs : List Nat) : Nat :=
  bs.foldr (fun b acc => acc * 256 + b) 0

/-- The 16-byte header written by the coordinator: `C` then `R`, both
little-endian u64 (`rados_grace_create`, and the `write_full` calls in
`__rados_grace_start` / `__rados_grace_lift`). -/
def encodeHeader (cur rec : Nat) : List Nat :=
  leBytes 8 cur ++ leBytes 8 rec

/-- Decoding of a header read.  The read ops ask for 16 bytes and check
`len_out != sizeof(buf)`; a short read (object data smaller than 16 bytes)
fails with `Corrupt` (`-ENOTRECOVERABLE`). -/
def decodeHeader (bs : List Nat) : Option (Nat × Nat) :=
  if bs.length = 16 then some (leVal (bs.take 8), leVal (bs.drop 8)) else none

/-- The header a verb reads from the object: `rados_read_op_read(op, 0, 16, ...)`
reads at most the first 16 bytes of the object data. -/
def headerOf (o : GObj) : Option (Nat × Nat) :=
  decodeHeader (o.data.take 16)

/-- Set key `k` to value `v` in an omap (one key of a
`rados_write_op_omap_set`): overwrite the existing entry if present,
otherwise add the entry. -/
def omapInsert (m : List (String × List Nat)) (k : String) (v : List Nat) :
    List (String × List Nat) :=
  if m.any (fun e => e.1 = k) then
    m.map (fun e => if e.1 = k then (k, v) else e)
  else
    m ++ [(k, v)]

/-- `rados_write_op_omap_set(wop, nodeids, vals, lens, nodes)` with the
`calloc`-zeroed `vals`/`lens` of `__rados_grace_start`: set every listed key
to the empty value. -/
def omapSetEmpty (m : List (String × List Nat)) (keys : List String) :
    List (String × List Nat) :=
  keys.foldl (fun m k => omapInsert m k []) m

/-- `rados_write_op_omap_rm_keys`: remove every entry whose key is listed. -/
def omapRmKeys (m : List (String × List Nat)) (keys : List String) :
    List (String × List Nat) :=
  m.filter (fun e => !(keys.contains e.1))

/-- Lookup of a key's value in the omap. -/
def omapLookup (m : List (String × List Nat)) (k : String) : Option (List Nat) :=
  (m.find? (fun e => e.1 = k)).map (fun e => e.2)

/-- The write op a verb commits under `assert_version`: an optional
`write_full` of fresh data bytes, an `omap_set` of keys to empty values, and
an `omap_rm_keys` list. -/
structure WriteOp where
  writeFull : Option (List Nat)
  omapSet : List String
  omapRm : List String
deriving Repr, DecidableEq

/-- Effect of committing a write op on the object. -/
def applyWop (w : WriteOp) (o : GObj) : GObj :=
  { data := w.writeFull.getD o.data
    omap := omapRmKeys (omapSetEmpty o.omap w.omapSet) w.omapRm }

instance {ε α : Type} [DecidableEq ε] [DecidableEq α] : DecidableEq (Except ε α) := fun a b =>
  match a, b with
  | .ok x, .ok y =>
    if h : x = y then .isTrue (by rw [h]) else .isFalse (by simp [h])
  | .error x, .error y =>
    if h : x = y then .isTrue (by rw [h]) else .isFalse (by simp [h])
  | .ok _, .error _ => .isFalse (by simp)
  | .error _, .ok _ => .isFalse (by simp)

/-- Result of running one coordinator verb against the object (sequentially,
with no interference between its read and its commit): the post-state, the
returned `(C, R)` pair or error, and whether a write op was committed (a
committed write bumps the object version even when it does not change the
object's contents). -/
structure OpResult where
  post : GObj
  ret : Except GErr (Nat × Nat)
  wrote : Bool
deriving Repr, DecidableEq

/-- Outcome of a verb's read-and-compute phase: an error, a success that
commits nothing (the `break` paths of the C loops), or a success committing a
write op. -/
def Prep := Except GErr ((Nat × Nat) × Option WriteOp)

/-- Run a prepared verb against the object it was prepared from (the
uncontended case: `assert_version` passes). -/
def runOp (o : GObj) (p : Prep) : OpResult :=
  match p with
  | .error e => ⟨o, .error e, false⟩
  | .ok (cr, none) => ⟨o, .ok cr, false⟩
  | .ok (cr, some w) => ⟨applyWop w o, .ok cr, true⟩

/-- Read-and-compute phase of `__rados_grace_start` (serving both
`rados_grace_start`, with `start = true`, and the join path, with
`start = false`): read the 16-byte header; if `R == 0` and the force flag is
clear, return the current `(C, 0)` with no write; otherwise advance the epoch
(`R ← C; C ← C + 1`, u64 arithmetic) when `R == 0`, and in every committed
write set every nodeid's omap entry to the empty value. -/
def startPrep (o : GObj) (nodeids : List String) (start : Bool) : Prep :=
  match headerOf o with
  | none => .error .Corrupt
  | some (cur, rec) =>
    if rec = 0 ∧ start = false then
      .ok ((cur, rec), none)
    else if rec = 0 then
      .ok (((cur + 1) % U64MOD, cur),
        some ⟨some (encodeHeader ((cur + 1) % U64MOD) cur), nodeids, []⟩)
    else
      .ok ((cur, rec), some ⟨none, nodeids, []⟩)

/-- `__rados_grace_start` run without interference. -/
def graceStart (o : GObj) (nodeids : List String) (start : Bool) : OpResult :=
  runOp o (startPrep o nodeids start)

/-- The `keys` array built by the omap walk of `__rados_grace_lift`: for each
omap key in turn, every `nodeids[i]` equal to it is appended.  Its length is
the `k` counter; the total number of omap keys walked is the `cnt` counter. -/
def liftMatches (omapKeys nodeids : List String) : List String :=
  omapKeys.flatMap (fun key => nodeids.filter (fun n => n = key))

/-- Read-and-compute phase of `__rados_grace_lift`: read the header together
with up to `MAX_ITEMS` omap keys (a truncated listing is `Corrupt`).  If
`R == 0`, succeed without a write when the omap is empty and fail with
`Corrupt` otherwise.  Otherwise collect the matching keys; if none match,
succeed without a write; else remove the matches and, exactly when the number
of omap entries walked equals the number of matches collected (`cnt == k`),
rewrite the header with `R ← 0` keeping `C`. -/
def liftPrep (o : GObj) (nodeids : List String) : Prep :=
  if MAX_ITEMS < o.omap.length then .error .Corrupt
  else
    match headerOf o with
    | none => .error .Corrupt
    | some (cur, rec) =>
      if rec = 0 then
        if o.omap.isEmpty then .ok ((cur, rec), none) else .error .Corrupt
      else
        let ks := liftMatches (o.omap.map Prod.fst) nodeids
        if ks.length = 0 then .ok ((cur, rec), none)
        else if o.omap.length = ks.length then
          .ok ((cur, 0), some ⟨some (encodeHeader cur 0), [], ks⟩)
        else
          .ok ((cur, rec), some ⟨none, [], ks⟩)

/-- `__rados_grace_lift` run without interference. -/
def graceLift (o : GObj) (nodeids : List String) : OpResult :=
  runOp o (liftPrep o nodeids)

/-- `rados_grace_create`: create the object exclusively with header
`C = 1, R = 0` and an empty omap; fail with `AlreadyExists` if it exists. -/
def rados_grace_create (o : Option GObj) : Except GErr GObj :=
  match o with
  | some _ => .error .AlreadyExists
  | none => .ok { data := encodeHeader 1 0, omap := [] }

/-- `rados_grace_epochs`: pure read of the header. -/
def rados_grace_epochs (o : GObj) : Except GErr (Nat × Nat) :=
  match headerOf o with
  | none => .error .Corrupt
  | some cr => .ok cr

/-- `rados_grace_dump`: read the header and up to `MAX_ITEMS` omap keys and
return them verbatim (`Corrupt` on a short header or truncated listing). -/
def rados_grace_dump (o : GObj) : Except GErr (Nat × Nat × List String) :=
  match headerOf o with
  | none => .error .Corrupt
  | some (cur, rec) =>
    if MAX_ITEMS < o.omap.length then .error .Corrupt
    else .ok (cur, rec, o.omap.map Prod.fst)

/-- `rados_grace_join`: reject the reserved nodeid `UINT32_MAX` with
`-EINVAL` before touching the store, else run the start path with a single
key — the decimal rendering (`snprintf "%u"`) of the nodeid — and the force
flag clear. -/
def rados_grace_join (o : GObj) (nodeid : Nat) : OpResult :=
  if nodeid = UINT32MAX then ⟨o, .error .InvalidArgument, false⟩
  else graceStart o [Nat.repr nodeid] false

/-- `rados_grace_done`: reject the reserved nodeid `UINT32_MAX` with
`-EINVAL` before touching the store, else run the lift path with the decimal
rendering of the nodeid as the single key. -/
def rados_grace_done (o : GObj) (nodeid : Nat) : OpResult :=
  if nodeid = UINT32MAX then ⟨o, .error .InvalidArgument, false⟩
  else graceLift o [Nat.repr nodeid]

/-- The header invariant of the spec: `C ≥ 1`, and `R < C` whenever
`R ≠ 0`. -/
def headerInv (cur rec : Nat) : Prop :=
  1 ≤ cur ∧ (rec ≠ 0 → rec < cur)

instance (cur rec : Nat) : Decidable (headerInv cur rec) := by
  unfold headerInv; infer_instance

/-- Lowercase hexadecimal digit character, the digit alphabet of the C
`%x` conversion: `'0'`–`'9'` then `'a'`–`'f'`. -/
def hexDigitChar (n : Nat) : Char :=
  if n < 10 then Char.ofNat (48 + n) else Char.ofNat (87 + n)

/-- Exactly `k` lowercase hex digits of `n`, zero-padded, most significant
digit first: the output of `snprintf "%16.16lx"` on a `uint64_t` has
`k = 16`. -/
def hexChars : Nat → Nat → List Char
  | 0, _ => []
  | k + 1, n => hexChars k (n / 16) ++ [hexDigitChar (n % 16)]

/-- The 16-digit hex rendering used in recovery-database object names. -/
def hex16 (n : Nat) : String :=
  ⟨hexChars 16 n⟩

/-- Numeric value of a lowercase hex digit character. -/
def hexCharVal (c : Char) : Nat :=
  if 97 ≤ c.toNat then c.toNat - 87 else c.toNat - 48

/-- Value denoted by a big-endian string of hex digit characters. -/
def hexVal (cs : List Char) : Nat :=
  cs.foldl (fun a c => a * 16 + hexCharVal c) 0

/-- Modelled from the spec: the byte size of the `rados_recov_oid` and
`rados_recov_old_oid` buffers.  Their declaration lives in
`recovery_rados.h`, which is not part of the sources here; the spec fixes
"the ambient convention is 256 bytes total". -/
def RADOS_RECOV_OID_BUFSZ : Nat := 256

/-- `snprintf` into a buffer of `size` bytes: at most `size - 1` characters
are stored, the last byte holding the NUL terminator. -/
def snprintfStr (size : Nat) (s : String) : String :=
  ⟨s.data.take (size - 1)⟩

/-- The recovery-database object name built by `rados_cluster_read_clids`
and `rados_cluster_maybe_start_grace`:
`snprintf(buf, sizeof(buf), "rec-%16.16lx:%s", epoch, nodeid)`. -/
def formatRecovOid (epoch : Nat) (nodeid : String) : String :=
  snprintfStr RADOS_RECOV_OID_BUFSZ ("rec-" ++ hex16 epoch ++ ":" ++ nodeid)

/-- The pair `(recov_oid, recov_old_oid)` that `rados_cluster_read_clids`
stores after its join of the grace period returned `(cur, rec)`. -/
def readClidsOids (cur rec : Nat) (nodeid : String) : String × String :=
  (formatRecovOid cur nodeid, formatRecovOid rec nodeid)

/-- A coordinator verb that mutates the shared object: the start/join path
(`__rados_grace_start` with its force flag) or the lift path
(`__rados_grace_lift`). -/
inductive Verb where
  | start (nodeids : List String) (flag : Bool)
  | lift (nodeids : List String)
deriving Repr, DecidableEq

/-- Read-and-compute phase of a verb against the object contents `o`. -/
def prepVerb (o : GObj) : Verb → Prep
  | .start ns f => startPrep o ns f
  | .lift ns => liftPrep o ns

/-- Versioned view of the shared object: the store bumps `ver` on every
committed write op. -/
structure VObj where
  obj : GObj
  ver : Nat
deriving Repr, DecidableEq

/-- One CAS attempt by a concurrent caller.  The write op is computed from
the snapshot the caller's read returned.  The commit is guarded by
`rados_write_op_assert_version(wop, snap.ver)`: it applies the op and bumps
the version when the object version is still `snap.ver`, and fails with
`-ERANGE` leaving the object untouched otherwise (the caller's `do/while`
then retries from a fresh read, which is a later attempt).  The verbs'
`break` paths commit no write op at all. -/
def casAttempt (s : VObj) (snap : VObj) (v : Verb) : VObj :=
  match prepVerb snap.obj v with
  | .error _ => s
  | .ok (_, none) => s
  | .ok (_, some w) =>
    if snap.ver = s.ver then ⟨applyWop w s.obj, s.ver + 1⟩ else s

/-- Histories of the shared object under arbitrary interleavings of
concurrent verbs, newest state first.  Each step is a CAS attempt whose
snapshot is some state the object actually held earlier in the
interleaving (an honest read). -/
inductive GReach (s0 : VObj) : List VObj → Prop where
  | init : GReach s0 [s0]
  | step {h : List VObj} {cur snap : VObj} {v : Verb} :
      GReach s0 (cur :: h) → snap ∈ cur :: h →
      GReach s0 (casAttempt cur snap v :: cur :: h)

/-! ## Codec lemmas -/

theorem leBytes_length (k n : Nat) : (leBytes k n).length = k := by
  induction k generalizing n with
  | zero => rfl
  | succ k ih => simp [leBytes, ih]

theorem leVal_leBytes (k n : Nat) : leVal (leBytes k n) = n % 256 ^ k := by
  induction k generalizing n with
  | zero => simp [leBytes, leVal, Nat.mod_one]
  | succ k ih =>
    have hm : n % (256 * 256 ^ k) = n % 256 + 256 * (n / 256 % 256 ^ k) := Nat.mod_mul
    simp only [leBytes, leVal, List.foldr_cons] at *
    rw [ih]
    rw [pow_succ, mul_comm (256 ^ k) 256, hm]
    omega

theorem encodeHeader_length (c r : Nat) : (encodeHeader c r).length = 16 := by
  simp [encodeHeader, leBytes_length]

theorem headerOf_mk (d : List Nat) (m : List (String × List Nat)) :
    headerOf ⟨d, m⟩ = decodeHeader (d.take 16) := rfl

theorem headerOf_data {o : GObj} {c r : Nat} (h : o.data = encodeHeader c r) :
    headerOf o = some (c % U64MOD, r % U64MOD) := by
  have h8c : (leBytes 8 c).length = 8 := leBytes_length 8 c
  have h16 : (encodeHeader c r).length = 16 := encodeHeader_length c r
  unfold headerOf
  rw [h, List.take_of_length_le (by rw [h16]), decodeHeader, if_pos h16]
  unfold encodeHeader
  rw [List.take_left' h8c, List.drop_left' h8c, leVal_leBytes, leVal_leBytes]
  have : (256 : Nat) ^ 8 = U64MOD := by norm_num [U64MOD]
  rw [this]

theorem headerOf_data_lt {o : GObj} {c r : Nat} (h : o.data = encodeHeader c r)
    (hc : c < U64MOD) (hr : r < U64MOD) : headerOf o = some (c, r) := by
  rw [headerOf_data h, Nat.mod_eq_of_lt hc, Nat.mod_eq_of_lt hr]

/-! ## Omap lemmas -/

theorem find?_key_map_update (m : List (String × List Nat)) (k k' : String)
    (v : List Nat) (h : k' ≠ k) :
    (m.map (fun e => if e.1 = k then (k, v) else e)).find?
        (fun e => decide (e.1 = k')) =
      m.find? (fun e => decide (e.1 = k')) := by
  induction m with
  | nil => rfl
  | cons e rest ih =>
    by_cases hek : e.1 = k
    · have h1 : ¬ ((k, v).1 = k') := fun hh => h hh.symm
      have h2 : ¬ (e.1 = k') := by rw [hek]; exact fun hh => h hh.symm
      simp only [List.map_cons, if_pos hek]
      rw [List.find?_cons_of_neg _ (by simpa using h1),
        List.find?_cons_of_neg _ (by simpa using h2), ih]
    · simp only [List.map_cons, if_neg hek]
      by_cases he' : e.1 = k'
      · rw [List.find?_cons_of_pos _ (by simpa using he'),
          List.find?_cons_of_pos _ (by simpa using he')]
      · rw [List.find?_cons_of_neg _ (by simpa using he'),
          List.find?_cons_of_neg _ (by simpa using he'), ih]

theorem find?_key_map_update_self (m : List (String × List Nat)) (k : String)
    (v : List Nat) (hany : m.any (fun e => decide (e.1 = k)) = true) :
    (m.map (fun e => if e.1 = k then (k, v) else e)).find?
        (fun e => decide (e.1 = k)) = some (k, v) := by
  induction m with
  | nil => simp at hany
  | cons e rest ih =>
    by_cases hek : e.1 = k
    · simp only [List.map_cons, if_pos hek]
      rw [List.find?_cons_of_pos _ (by simp)]
    · simp only [List.map_cons, if_neg hek]
      rw [List.find?_cons_of_neg _ (by simpa using hek)]
      apply ih
      simp only [List.any_cons, Bool.or_eq_true, decide_eq_true_eq] at hany
      rcases hany with hh | hh
      · exact absurd hh hek
      · simpa using hh

theorem find?_key_append_single (m : List (String × List Nat)) (k k' : String)
    (v : List Nat) (h : k' ≠ k) :
    (m ++ [(k, v)]).find? (fun e => decide (e.1 = k')) =
      m.find? (fun e => decide (e.1 = k')) := by
  induction m with
  | nil =>
    rw [List.nil_append, List.find?_cons_of_neg _ (by simpa using fun hh : k = k' => h hh.symm)]
  | cons e rest ih =>
    by_cases he' : e.1 = k'
    · rw [List.cons_append, List.find?_cons_of_pos _ (by simpa using he'),
        List.find?_cons_of_pos _ (by simpa using he')]
    · rw [List.cons_append, List.find?_cons_of_neg _ (by simpa using he'),
        List.find?_cons_of_neg _ (by simpa using he'), ih]

theorem find?_key_append_self (m : List (String × List Nat)) (k : String)
    (v : List Nat) (hnone : m.any (fun e => decide (e.1 = k)) = false) :
    (m ++ [(k, v)]).find? (fun e => decide (e.1 = k)) = some (k, v) := by
  induction m with
  | nil => rw [List.nil_append, List.find?_cons_of_pos _ (by simp)]
  | cons e rest ih =>
    simp only [List.any_cons, Bool.or_eq_false_iff, decide_eq_false_iff_not] at hnone
    rw [List.cons_append, List.find?_cons_of_neg _ (by simpa using hnone.1)]
    apply ih
    simpa using hnone.2

theorem omapLookup_insert_self (m : List (String × List Nat)) (k : String)
    (v : List Nat) : omapLookup (omapInsert m k v) k = some v := by
  unfold omapInsert omapLookup
  split
  · rename_i hany
    rw [find?_key_map_update_self m k v hany]
    rfl
  · rename_i hany
    rw [find?_key_append_self m k v (Bool.eq_false_iff.mpr hany)]
    rfl

theorem omapLookup_insert_ne (m : List (String × List Nat)) (k k' : String)
    (v : List Nat) (h : k' ≠ k) :
    omapLookup (omapInsert m k v) k' = omapLookup m k' := by
  unfold omapInsert omapLookup
  split
  · rw [find?_key_map_update m k k' v h]
  · rw [find?_key_append_single m k k' v h]

theorem omapLookup_setEmpty_not_mem (ks : List String)
    (m : List (String × List Nat)) (n : String) (hn : n ∉ ks) :
    omapLookup (omapSetEmpty m ks) n = omapLookup m n := by
  induction ks generalizing m with
  | nil => rfl
  | cons k rest ih =>
    simp only [List.mem_cons, not_or] at hn
    have h1 : omapSetEmpty m (k :: rest) = omapSetEmpty (omapInsert m k []) rest := rfl
    rw [h1, ih _ hn.2, omapLookup_insert_ne _ _ _ _ hn.1]

theorem omapLookup_setEmpty_mem (ks : List String)
    (m : List (String × List Nat)) (n : String) (hn : n ∈ ks) :
    omapLookup (omapSetEmpty m ks) n = some [] := by
  induction ks generalizing m with
  | nil => simp at hn
  | cons k rest ih =>
    have h1 : omapSetEmpty m (k :: rest) = omapSetEmpty (omapInsert m k []) rest := rfl
    rw [h1]
    by_cases hr : n ∈ rest
    · exact ih _ hr
    · have hk : n = k := by
        rcases List.mem_cons.mp hn with h | h
        · exact h
        · exact absurd h hr
      subst hk
      rw [omapLookup_setEmpty_not_mem _ _ _ hr, omapLookup_insert_self]

/-! ## Lift matching lemmas -/

theorem mem_liftMatches (ks ns : List String) (x : String) :
    x ∈ liftMatches ks ns ↔ x ∈ ks ∧ x ∈ ns := by
  unfold liftMatches
  simp only [List.mem_flatMap, List.mem_filter, decide_eq_true_eq]
  constructor
  · rintro ⟨a, ha, hx, hxa⟩
    exact ⟨hxa ▸ ha, hx⟩
  · rintro ⟨hks, hns⟩
    exact ⟨x, hks, hns, rfl⟩

theorem liftMatches_eq_nil (ks ns : List String)
    (h : ∀ x ∈ ks, x ∉ ns) : liftMatches ks ns = [] := by
  unfold liftMatches
  rw [List.flatMap_eq_nil_iff]
  intro a ha
  exact List.filter_eq_nil_iff.mpr (fun n hn => by
    simp only [decide_eq_true_eq]
    intro he
    exact h a ha (he ▸ hn))

theorem filter_single_length_nodup (ns : List String) (k : String)
    (h : ns.Nodup) :
    (ns.filter (fun n => n = k)).length = if k ∈ ns then 1 else 0 := by
  induction ns with
  | nil => simp
  | cons n rest ih =>
    rcases List.nodup_cons.mp h with ⟨hn, hrest⟩
    by_cases he : n = k
    · subst he
      have : rest.filter (fun n' => decide (n' = n)) = [] :=
        List.filter_eq_nil_iff.mpr (fun x hx => by
          simp only [decide_eq_true_eq]
          intro hxe
          exact hn (hxe ▸ hx))
      simp [List.filter_cons, this, ih hrest]
    · have hkn : ¬ k = n := fun hh => he hh.symm
      simp only [List.filter_cons, decide_eq_true_eq, if_neg he]
      rw [ih hrest]
      by_cases hk : k ∈ rest <;> simp [hk, List.mem_cons, hkn]

theorem liftMatches_length_nodup (ks ns : List String) (h : ns.Nodup) :
    (liftMatches ks ns).length =
      (ks.filter (fun x => ns.contains x)).length := by
  induction ks with
  | nil => rfl
  | cons k rest ih =>
    unfold liftMatches at *
    simp only [List.flatMap_cons, List.length_append, List.filter_cons]
    rw [ih, filter_single_length_nodup ns k h]
    by_cases hk : k ∈ ns
    · simp [hk, Nat.add_comm]
    · simp [hk]

theorem omapRmKeys_nil (m : List (String × List Nat)) : omapRmKeys m [] = m := by
  simp [omapRmKeys]

/-! ## Claim theorems -/

/-- C3: a join — `__rados_grace_start` with the force flag clear, the call
`rados_grace_join` makes with its single decimal key — executed on a state
whose header has `R == 0` succeeds returning the current `(C, 0)`, does not
advance the epoch, and leaves the object (header and omap) unchanged: the
node is not inserted into the cohort. -/
theorem C3_join_no_grace_noop (o : GObj) (c : Nat) (hc : c < U64MOD)
    (hdata : o.data = encodeHeader c 0) (nodeid : String) :
    graceStart o [nodeid] false = ⟨o, .ok (c, 0), false⟩ := by
  have h := headerOf_data_lt hdata hc (by norm_num [U64MOD])
  simp [graceStart, startPrep, h, runOp]

/-- Witness for C3 at a concrete state: header `(5, 0)`, omap `{"A"}`,
joining node `"B"`. -/
theorem C3_witness :
    graceStart ⟨encodeHeader 5 0, [("A", [])]⟩ ["B"] false =
      ⟨⟨encodeHeader 5 0, [("A", [])]⟩, .ok (5, 0), false⟩ :=
  C3_join_no_grace_noop ⟨encodeHeader 5 0, [("A", [])]⟩ 5 (by norm_num [U64MOD]) rfl "B"

/-- C5: a lift executed on a state whose header has `R == 0` succeeds
without mutating the object when the omap is empty, and returns `Corrupt`
leaving the object unchanged when any omap entry exists. -/
theorem C5_lift_no_grace (o : GObj) (c : Nat) (hc : c < U64MOD)
    (hdata : o.data = encodeHeader c 0) (nodeids : List String) :
    (o.omap = [] → graceLift o nodeids = ⟨o, .ok (c, 0), false⟩) ∧
    (o.omap ≠ [] → graceLift o nodeids = ⟨o, .error .Corrupt, false⟩) := by
  have h := headerOf_data_lt hdata hc (by norm_num [U64MOD])
  constructor
  · intro he
    simp [graceLift, liftPrep, h, he, runOp, MAX_ITEMS]
  · intro he
    by_cases hm : MAX_ITEMS < o.omap.length
    · simp [graceLift, liftPrep, hm, runOp]
    · simp [graceLift, liftPrep, hm, h, he, runOp]

/-- Witness for C5 at a concrete state: header `(3, 0)` with the leftover
entry `"A"` in the omap; the lift reports `Corrupt` and changes nothing. -/
theorem C5_witness :
    ([("A", [])] : List (String × List Nat)) ≠ [] ∧
    graceLift ⟨encodeHeader 3 0, [("A", [])]⟩ ["A"] =
      ⟨⟨encodeHeader 3 0, [("A", [])]⟩, .error .Corrupt, false⟩ :=
  ⟨by decide,
    (C5_lift_no_grace ⟨encodeHeader 3 0, [("A", [])]⟩ 3 (by norm_num [U64MOD])
      rfl ["A"]).2 (by decide)⟩

/-- C8: every verb that reads the 16-byte header — epochs, dump, the
start/join path, the lift/done path — fails with `Corrupt` when the read
returns a length other than exactly 16 bytes, and does not modify the
object. -/
theorem C8_short_header_corrupt (o : GObj) (hlen : (o.data.take 16).length ≠ 16)
    (nodeids : List String) (flag : Bool) :
    rados_grace_epochs o = .error .Corrupt ∧
    rados_grace_dump o = .error .Corrupt ∧
    graceStart o nodeids flag = ⟨o, .error .Corrupt, false⟩ ∧
    graceLift o nodeids = ⟨o, .error .Corrupt, false⟩ := by
  have h : headerOf o = none := by
    unfold headerOf decodeHeader
    rw [if_neg hlen]
  refine ⟨?_, ?_, ?_, ?_⟩
  · simp [rados_grace_epochs, h]
  · simp [rados_grace_dump, h]
  · simp [graceStart, startPrep, h, runOp]
  · by_cases hm : MAX_ITEMS < o.omap.length
    · simp [graceLift, liftPrep, hm, runOp]
    · simp [graceLift, liftPrep, hm, h, runOp]

/-- Witness for C8: a 15-byte header makes every verb return `Corrupt`. -/
theorem C8_witness :
    ((List.replicate 15 0).take 16).length ≠ 16 ∧
    rados_grace_epochs ⟨List.replicate 15 0, []⟩ = .error .Corrupt ∧
    rados_grace_dump ⟨List.replicate 15 0, []⟩ = .error .Corrupt ∧
    graceStart ⟨List.replicate 15 0, []⟩ ["A"] true =
      ⟨⟨List.replicate 15 0, []⟩, .error .Corrupt, false⟩ ∧
    graceLift ⟨List.replicate 15 0, []⟩ ["A"] =
      ⟨⟨List.replicate 15 0, []⟩, .error .Corrupt, false⟩ :=
  ⟨by decide, C8_short_header_corrupt ⟨List.replicate 15 0, []⟩ (by decide) ["A"] true⟩

/-- C10: the single-node wrappers `rados_grace_join` and `rados_grace_done`
reject the numeric nodeid `UINT32_MAX` with `InvalidArgument` before any
store interaction (the shared state is returned unchanged), and for every
nodeid below `UINT32_MAX` they run the start/lift path whose single omap key
is the decimal rendering of the number. -/
theorem C10_wrapper_nodeids (o : GObj) (nodeid : Nat) (h : nodeid < UINT32MAX) :
    rados_grace_join o UINT32MAX = ⟨o, .error .InvalidArgument, false⟩ ∧
    rados_grace_done o UINT32MAX = ⟨o, .error .InvalidArgument, false⟩ ∧
    rados_grace_join o nodeid = graceStart o [Nat.repr nodeid] false ∧
    rados_grace_done o nodeid = graceLift o [Nat.repr nodeid] := by
  have hne : nodeid ≠ UINT32MAX := Nat.ne_of_lt h
  refine ⟨?_, ?_, ?_, ?_⟩ <;> simp [rados_grace_join, rados_grace_done, hne]

/-- Witness for C10 at nodeid `7` on the freshly created object. -/
theorem C10_witness :
    (7 : Nat) < UINT32MAX ∧
    (rados_grace_join ⟨encodeHeader 1 0, []⟩ UINT32MAX =
      ⟨⟨encodeHeader 1 0, []⟩, .error .InvalidArgument, false⟩ ∧
    rados_grace_done ⟨encodeHeader 1 0, []⟩ UINT32MAX =
      ⟨⟨encodeHeader 1 0, []⟩, .error .InvalidArgument, false⟩ ∧
    rados_grace_join ⟨encodeHeader 1 0, []⟩ 7 =
      graceStart ⟨encodeHeader 1 0, []⟩ [Nat.repr 7] false ∧
    rados_grace_done ⟨encodeHeader 1 0, []⟩ 7 =
      graceLift ⟨encodeHeader 1 0, []⟩ [Nat.repr 7]) :=
  ⟨by decide, C10_wrapper_nodeids ⟨encodeHeader 1 0, []⟩ 7 (by decide)⟩

/-- C2: a successful start (`__rados_grace_start` with the force flag set):
when the header read had `R == 0` the committed header has `R ← old C` and
`C ← old C + 1` (u64 arithmetic); otherwise the header bytes are unchanged;
in both cases every listed nodeid is present in the omap afterwards with an
empty value. -/
theorem C2_start_effect (o : GObj) (c r : Nat) (hc : c < U64MOD)
    (hr : r < U64MOD) (hdata : o.data = encodeHeader c r)
    (nodeids : List String) :
    (r = 0 →
      graceStart o nodeids true =
        ⟨⟨encodeHeader ((c + 1) % U64MOD) c, omapSetEmpty o.omap nodeids⟩,
          .ok ((c + 1) % U64MOD, c), true⟩) ∧
    (r ≠ 0 →
      graceStart o nodeids true =
        ⟨⟨o.data, omapSetEmpty o.omap nodeids⟩, .ok (c, r), true⟩) ∧
    (∀ n ∈ nodeids,
      omapLookup (graceStart o nodeids true).post.omap n = some []) := by
  have h := headerOf_data_lt hdata hc hr
  have hpost : (graceStart o nodeids true).post.omap = omapSetEmpty o.omap nodeids := by
    by_cases h0 : r = 0
    · subst h0
      simp [graceStart, startPrep, h, runOp, applyWop, omapRmKeys_nil]
    · simp [graceStart, startPrep, h, h0, runOp, applyWop, omapRmKeys_nil]
  refine ⟨?_, ?_, ?_⟩
  · intro h0; subst h0
    simp [graceStart, startPrep, h, runOp, applyWop, omapRmKeys_nil]
  · intro h0
    simp [graceStart, startPrep, h, h0, runOp, applyWop, omapRmKeys_nil]
  · intro n hn
    rw [hpost]
    exact omapLookup_setEmpty_mem nodeids o.omap n hn

/-- Witness for C2: starting grace for `"A"` and `"B"` on the fresh object
`(1, 0)` advances the header to `(2, 1)` and registers both nodes. -/
theorem C2_witness :
    (graceStart ⟨encodeHeader 1 0, []⟩ ["A", "B"] true =
      ⟨⟨encodeHeader ((1 + 1) % U64MOD) 1, omapSetEmpty [] ["A", "B"]⟩,
        .ok ((1 + 1) % U64MOD, 1), true⟩) ∧
    (∀ n ∈ (["A", "B"] : List String),
      omapLookup (graceStart ⟨encodeHeader 1 0, []⟩ ["A", "B"] true).post.omap n =
        some []) := by
  have h := C2_start_effect ⟨encodeHeader 1 0, []⟩ 1 0 (by norm_num [U64MOD])
    (by norm_num [U64MOD]) rfl ["A", "B"]
  exact ⟨h.1 rfl, h.2.2⟩

theorem omapRmKeys_liftMatches (m : List (String × List Nat)) (ns : List String) :
    omapRmKeys m (liftMatches (m.map Prod.fst) ns) =
      m.filter (fun e => !(ns.contains e.1)) := by
  unfold omapRmKeys
  apply List.filter_congr
  intro e he
  have hiff : e.1 ∈ liftMatches (m.map Prod.fst) ns ↔ e.1 ∈ ns := by
    rw [mem_liftMatches]
    exact ⟨fun hh => hh.2, fun hh => ⟨List.mem_map_of_mem _ he, hh⟩⟩
  by_cases hin : e.1 ∈ ns
  · simp [hin, hiff.mpr hin]
  · have hnin : e.1 ∉ liftMatches (m.map Prod.fst) ns := fun hh => hin (hiff.mp hh)
    simp [hin, hnin]

/-- C1 fails as stated: from the state with header `(2, 1)` and omap
`{"1"}`, the lift `lift(oid, ["1", "1"])` — `nodeids[]` listing node `"1"`
twice — succeeds, removes the last cohort member, yet leaves `R = 1`: the
omap walk counts the key once (`cnt = 1`) but matches it against both
`nodeids` entries (`k = 2`), so the `cnt == k` header rewrite is skipped and
the committed state has an empty omap with `R ≠ 0`. -/
theorem C1_counterexample :
    (graceLift ⟨encodeHeader 2 1, [("1", [])]⟩ ["1", "1"]).ret = .ok (2, 1) ∧
    (graceLift ⟨encodeHeader 2 1, [("1", [])]⟩ ["1", "1"]).post.omap = [] ∧
    headerOf (graceLift ⟨encodeHeader 2 1, [("1", [])]⟩ ["1", "1"]).post =
      some (2, 1) := by
  decide

/-- C1 (amended): for every lift whose `nodeids[]` list contains no
duplicate entries, executed from a state with `R ≠ 0` and an omap within
the `MAX_ITEMS` bound, with `K` the intersection of the omap keys read with
`nodeids[]`: the call succeeds and removes exactly the keys in `K`; it
rewrites the header to `R = 0` (keeping `C`) iff `K` is nonempty and `|K|`
equals the total number of omap entries observed in the read (if `K` is
empty no write is committed at all), and otherwise leaves the header bytes
unchanged; consequently no such lift from a nonempty omap produces a state
with an empty omap and `R ≠ 0`.  The unamended claim is refuted by
`C1_counterexample`, where a duplicated nodeid defeats the `cnt == k`
comparison. -/
theorem C1_lift_removes_matches (o : GObj) (c r : Nat) (hc : c < U64MOD)
    (hr : r < U64MOD) (hrne : r ≠ 0) (hdata : o.data = encodeHeader c r)
    (hbound : o.omap.length ≤ MAX_ITEMS) (nodeids : List String)
    (hnd : nodeids.Nodup) :
    (graceLift o nodeids).post.omap =
      o.omap.filter (fun e => !(nodeids.contains e.1)) ∧
    (graceLift o nodeids).ret =
      .ok (c,
        if ((o.omap.map Prod.fst).filter (fun x => nodeids.contains x)).length =
              o.omap.length ∧
            ((o.omap.map Prod.fst).filter (fun x => nodeids.contains x)).length ≠ 0
        then 0 else r) ∧
    (graceLift o nodeids).post.data =
      (if ((o.omap.map Prod.fst).filter (fun x => nodeids.contains x)).length =
              o.omap.length ∧
            ((o.omap.map Prod.fst).filter (fun x => nodeids.contains x)).length ≠ 0
       then encodeHeader c 0 else o.data) ∧
    (o.omap ≠ [] → (graceLift o nodeids).post.omap = [] →
      (graceLift o nodeids).post.data = encodeHeader c 0) := by
  have h := headerOf_data_lt hdata hc hr
  have hm : ¬ (MAX_ITEMS < o.omap.length) := not_lt.mpr hbound
  have hlen : (liftMatches (o.omap.map Prod.fst) nodeids).length =
      ((o.omap.map Prod.fst).filter (fun x => nodeids.contains x)).length :=
    liftMatches_length_nodup _ _ hnd
  by_cases hk0 : (liftMatches (o.omap.map Prod.fst) nodeids).length = 0
  · have hK0 : ((o.omap.map Prod.fst).filter (fun x => nodeids.contains x)).length = 0 := by
      rw [← hlen]; exact hk0
    have hcond : ¬ (((o.omap.map Prod.fst).filter (fun x => nodeids.contains x)).length =
        o.omap.length ∧
        ((o.omap.map Prod.fst).filter (fun x => nodeids.contains x)).length ≠ 0) :=
      fun hand => hand.2 hK0
    have hfilter : o.omap.filter (fun e => !(nodeids.contains e.1)) = o.omap := by
      apply List.filter_eq_self.mpr
      intro e he
      have hnin : e.1 ∉ nodeids := by
        intro hin
        have hm1 : e.1 ∈ liftMatches (o.omap.map Prod.fst) nodeids :=
          (mem_liftMatches _ _ _).mpr ⟨List.mem_map_of_mem _ he, hin⟩
        rw [List.length_eq_zero] at hk0
        rw [hk0] at hm1
        exact absurd hm1 (List.not_mem_nil _)
      simp [hnin]
    have hgl : graceLift o nodeids = ⟨o, .ok (c, r), false⟩ := by
      simp [graceLift, liftPrep, hm, h, hrne, hk0, runOp]
    rw [hgl, if_neg hcond, if_neg hcond]
    refine ⟨hfilter.symm, rfl, rfl, ?_⟩
    intro hne hpost
    exact absurd hpost hne
  · by_cases hcnt : o.omap.length = (liftMatches (o.omap.map Prod.fst) nodeids).length
    · have hcond : ((o.omap.map Prod.fst).filter (fun x => nodeids.contains x)).length =
          o.omap.length ∧
          ((o.omap.map Prod.fst).filter (fun x => nodeids.contains x)).length ≠ 0 := by
        constructor
        · rw [← hlen]; exact hcnt.symm
        · rw [← hlen]; exact hk0
      have hm2 : ¬ (MAX_ITEMS < (liftMatches (o.omap.map Prod.fst) nodeids).length) := by
        rw [← hcnt]; exact hm
      have hgl : graceLift o nodeids =
          ⟨⟨encodeHeader c 0,
            omapRmKeys o.omap (liftMatches (o.omap.map Prod.fst) nodeids)⟩,
            .ok (c, 0), true⟩ := by
        simp [graceLift, liftPrep, hm, hm2, h, hrne, hk0, hcnt, runOp, applyWop,
          omapSetEmpty]
      rw [hgl, if_pos hcond, if_pos hcond]
      refine ⟨omapRmKeys_liftMatches o.omap nodeids, rfl, rfl, fun _ _ => rfl⟩
    · have hcond : ¬ (((o.omap.map Prod.fst).filter (fun x => nodeids.contains x)).length =
          o.omap.length ∧
          ((o.omap.map Prod.fst).filter (fun x => nodeids.contains x)).length ≠ 0) := by
        intro hand
        exact hcnt (by rw [hlen, hand.1])
      have hgl : graceLift o nodeids =
          ⟨⟨o.data,
            omapRmKeys o.omap (liftMatches (o.omap.map Prod.fst) nodeids)⟩,
            .ok (c, r), true⟩ := by
        simp [graceLift, liftPrep, hm, h, hrne, hk0, hcnt, runOp, applyWop, omapSetEmpty]
      rw [hgl, if_neg hcond, if_neg hcond]
      refine ⟨omapRmKeys_liftMatches o.omap nodeids, rfl, rfl, ?_⟩
      intro hne hpost
      exfalso
      rw [omapRmKeys_liftMatches o.omap nodeids] at hpost
      have hall : ∀ e ∈ o.omap, e.1 ∈ nodeids := by
        intro e he
        have := List.filter_eq_nil_iff.mp hpost e he
        by_cases hin : e.1 ∈ nodeids
        · exact hin
        · simp [hin] at this
      have hKall : (o.omap.map Prod.fst).filter (fun x => nodeids.contains x) =
          o.omap.map Prod.fst := by
        apply List.filter_eq_self.mpr
        intro x hx
        obtain ⟨e, he, rfl⟩ := List.mem_map.mp hx
        simp [hall e he]
      apply hcnt
      rw [hlen, hKall, List.length_map]

/-- Witness for the amended C1: lifting node `"1"` from header `(2, 1)` with
omap `{"1", "2"}` removes exactly `"1"`, keeps the header (cohort not yet
empty), and returns `(2, 1)`. -/
theorem C1_witness :
    (graceLift ⟨encodeHeader 2 1, [("1", []), ("2", [])]⟩ ["1"]).post.omap =
      [("2", [])] ∧
    (graceLift ⟨encodeHeader 2 1, [("1", []), ("2", [])]⟩ ["1"]).ret =
      .ok (2, 1) ∧
    (graceLift ⟨encodeHeader 2 1, [("1", []), ("2", [])]⟩ ["1"]).post.data =
      encodeHeader 2 1 := by
  have h := C1_lift_removes_matches ⟨encodeHeader 2 1, [("1", []), ("2", [])]⟩
    2 1 (by norm_num [U64MOD]) (by norm_num [U64MOD]) (by decide) rfl
    (by decide) ["1"] (by decide)
  refine ⟨?_, ?_, ?_⟩
  · rw [h.1]; decide
  · rw [h.2.1]; decide
  · rw [h.2.2.1]; decide

theorem graceStart_post_data_cases (o : GObj) (ns : List String) (f : Bool) :
    (graceStart o ns f).post.data = o.data ∨
    ∃ cur rec, headerOf o = some (cur, rec) ∧ rec = 0 ∧
      (graceStart o ns f).post.data = encodeHeader ((cur + 1) % U64MOD) cur := by
  cases hh : headerOf o with
  | none => left; simp [graceStart, startPrep, hh, runOp]
  | some cr =>
    obtain ⟨cur, rec⟩ := cr
    by_cases hr0 : rec = 0
    · cases f with
      | false => left; simp [graceStart, startPrep, hh, hr0, runOp]
      | true =>
        right
        exact ⟨cur, rec, rfl, hr0, by
          simp [graceStart, startPrep, hh, hr0, runOp, applyWop]⟩
    · left; simp [graceStart, startPrep, hh, hr0, runOp, applyWop]

theorem graceLift_post_data_cases (o : GObj) (ns : List String) :
    (graceLift o ns).post.data = o.data ∨
    ∃ cur rec, headerOf o = some (cur, rec) ∧
      (graceLift o ns).post.data = encodeHeader cur 0 := by
  by_cases hm : MAX_ITEMS < o.omap.length
  · left; simp [graceLift, liftPrep, hm, runOp]
  · cases hh : headerOf o with
    | none => left; simp [graceLift, liftPrep, hm, hh, runOp]
    | some cr =>
      obtain ⟨cur, rec⟩ := cr
      by_cases hr0 : rec = 0
      · left
        by_cases he : o.omap.isEmpty <;>
          simp [graceLift, liftPrep, hm, hh, hr0, he, runOp]
      · by_cases hk0 : (liftMatches (o.omap.map Prod.fst) ns).length = 0
        · left; simp [graceLift, liftPrep, hm, hh, hr0, hk0, runOp]
        · by_cases hcnt : o.omap.length = (liftMatches (o.omap.map Prod.fst) ns).length
          · right
            refine ⟨cur, rec, rfl, ?_⟩
            have hm2 : ¬ (MAX_ITEMS < (liftMatches (o.omap.map Prod.fst) ns).length) := by
              rw [← hcnt]; exact hm
            simp [graceLift, liftPrep, hm, hm2, hh, hr0, hk0, hcnt, runOp, applyWop]
          · left
            simp [graceLift, liftPrep, hm, hh, hr0, hk0, hcnt, runOp, applyWop]

/-- C4 fails as stated: from the u64-valid state with header
`C = 2^64 - 1, R = 0`, the epoch-advancing step of a start wraps `C` to
`0`, and the post-state violates both `C ≥ 1` and `R < C`. -/
theorem C4_counterexample :
    (graceStart ⟨encodeHeader (U64MOD - 1) 0, []⟩ ["A"] true).ret =
      .ok (0, U64MOD - 1) ∧
    headerOf (graceStart ⟨encodeHeader (U64MOD - 1) 0, []⟩ ["A"] true).post =
      some (0, U64MOD - 1) ∧
    ¬ headerInv 0 (U64MOD - 1) := by
  refine ⟨?_, ?_, ?_⟩ <;> decide

/-- C4 (amended): every successful coordinator verb — create, the
start/join path, the lift/done path — executed from a pre-state whose
header satisfies the invariant (`C ≥ 1`, and `R < C` when `R ≠ 0`) and
whose current epoch does not overflow (`C + 1 < 2^64`), yields a post-state
whose header satisfies `C ≥ 1` and `R < C` whenever `R ≠ 0`; in particular
the epoch-advancing step `R ← C, C ← C + 1` preserves the invariant for
every u64 value of `C` except `2^64 - 1`, where the unamended claim is
refuted (u64 wrap-around, see the counterexample). -/
theorem C4_invariant_preserved (o : GObj) (c r : Nat) (hcw : c + 1 < U64MOD)
    (hr : r < U64MOD) (hinv : headerInv c r)
    (hdata : o.data = encodeHeader c r) (nodeids : List String) (flag : Bool) :
    (∀ o', rados_grace_create none = .ok o' →
      ∃ c' r', headerOf o' = some (c', r') ∧ headerInv c' r') ∧
    (∀ cr', (graceStart o nodeids flag).ret = .ok cr' →
      ∃ c' r', headerOf (graceStart o nodeids flag).post = some (c', r') ∧
        headerInv c' r') ∧
    (∀ cr', (graceLift o nodeids).ret = .ok cr' →
      ∃ c' r', headerOf (graceLift o nodeids).post = some (c', r') ∧
        headerInv c' r') := by
  have hc : c < U64MOD := Nat.lt_of_succ_lt hcw
  have h := headerOf_data_lt hdata hc hr
  have hsameHeader : ∀ o' : GObj, o'.data = o.data → headerOf o' = some (c, r) := by
    intro o' ho'
    have hsh : headerOf o' = headerOf o := by unfold headerOf; rw [ho']
    rw [hsh, h]
  refine ⟨?_, ?_, ?_⟩
  · intro o' ho'
    have ho : GObj.mk (encodeHeader 1 0) [] = o' := Except.ok.inj ho'
    subst ho
    exact ⟨1, 0,
      headerOf_data_lt rfl (by norm_num [U64MOD]) (by norm_num [U64MOD]),
      le_refl 1, fun h0 => absurd rfl h0⟩
  · intro cr' _
    rcases graceStart_post_data_cases o nodeids flag with hsame |
      ⟨cur, rec, hh, hrec0, hadv⟩
    · exact ⟨c, r, hsameHeader _ hsame, hinv⟩
    · rw [h] at hh
      simp only [Option.some.injEq, Prod.mk.injEq] at hh
      obtain ⟨hc1, hr1⟩ := hh
      subst hc1
      have hmod : (c + 1) % U64MOD = c + 1 := Nat.mod_eq_of_lt hcw
      rw [hmod] at hadv
      exact ⟨c + 1, c, headerOf_data_lt hadv hcw hc,
        by omega, fun _ => Nat.lt_succ_self c⟩
  · intro cr' _
    rcases graceLift_post_data_cases o nodeids with hsame | ⟨cur, rec, hh, hlift⟩
    · exact ⟨c, r, hsameHeader _ hsame, hinv⟩
    · rw [h] at hh
      simp only [Option.some.injEq, Prod.mk.injEq] at hh
      obtain ⟨hc1, hr1⟩ := hh
      subst hc1
      exact ⟨c, 0, headerOf_data_lt hlift hc (by norm_num [U64MOD]),
        hinv.1, fun h0 => absurd rfl h0⟩

/-- Witness for the amended C4: the first start on the fresh object `(1, 0)`
yields a post-header satisfying the invariant. -/
theorem C4_witness :
    ∃ c' r', headerOf (graceStart ⟨encodeHeader 1 0, []⟩ ["A"] true).post =
        some (c', r') ∧ headerInv c' r' :=
  (C4_invariant_preserved ⟨encodeHeader 1 0, []⟩ 1 0 (by norm_num [U64MOD])
    (by norm_num [U64MOD]) ⟨le_refl 1, fun h0 => absurd rfl h0⟩ rfl
    ["A"] true).2.1 (2, 1) (by decide)

/-- C7: lift is idempotent on the object state: for every object state and
every `nodeids[]` argument, applying the lift path twice yields the same
state as applying it once; in particular once `R = 0` a subsequent lift
performs no mutation. -/
theorem C7_lift_idempotent (o : GObj) (nodeids : List String) :
    (graceLift (graceLift o nodeids).post nodeids).post =
      (graceLift o nodeids).post := by
  by_cases hm : MAX_ITEMS < o.omap.length
  · have hgl : (graceLift o nodeids).post = o := by
      simp [graceLift, liftPrep, hm, runOp]
    rw [hgl]; exact hgl
  · cases hh : headerOf o with
    | none =>
      have hgl : (graceLift o nodeids).post = o := by
        simp [graceLift, liftPrep, hm, hh, runOp]
      rw [hgl]; exact hgl
    | some cr =>
      obtain ⟨cur, rec⟩ := cr
      by_cases hr0 : rec = 0
      · have hgl : (graceLift o nodeids).post = o := by
          by_cases he : o.omap.isEmpty <;>
            simp [graceLift, liftPrep, hm, hh, hr0, he, runOp]
        rw [hgl]; exact hgl
      · by_cases hk0 : (liftMatches (o.omap.map Prod.fst) nodeids).length = 0
        · have hgl : (graceLift o nodeids).post = o := by
            simp [graceLift, liftPrep, hm, hh, hr0, hk0, runOp]
          rw [hgl]; exact hgl
        · by_cases hcnt : o.omap.length =
              (liftMatches (o.omap.map Prod.fst) nodeids).length
          · have hm2 : ¬ (MAX_ITEMS <
                (liftMatches (o.omap.map Prod.fst) nodeids).length) := by
              rw [← hcnt]; exact hm
            have hgl : (graceLift o nodeids).post =
                ⟨encodeHeader cur 0,
                  omapRmKeys o.omap (liftMatches (o.omap.map Prod.fst) nodeids)⟩ := by
              simp [graceLift, liftPrep, hm, hm2, hh, hr0, hk0, hcnt, runOp,
                applyWop, omapSetEmpty]
            rw [hgl]
            have hm' : ¬ (MAX_ITEMS <
                (omapRmKeys o.omap
                  (liftMatches (o.omap.map Prod.fst) nodeids)).length) := by
              apply not_lt.mpr
              exact le_trans (List.length_filter_le _ _) (not_lt.mp hm)
            have hh' : headerOf
                (⟨encodeHeader cur 0,
                  omapRmKeys o.omap (liftMatches (o.omap.map Prod.fst) nodeids)⟩ : GObj) =
                some (cur % U64MOD, 0) := by
              have := headerOf_data
                (o := ⟨encodeHeader cur 0,
                  omapRmKeys o.omap (liftMatches (o.omap.map Prod.fst) nodeids)⟩) rfl
              simpa using this
            by_cases he' : (omapRmKeys o.omap
                (liftMatches (o.omap.map Prod.fst) nodeids)).isEmpty <;>
              simp [graceLift, liftPrep, hm', hh', he', runOp]
          · have hgl : (graceLift o nodeids).post =
                ⟨o.data,
                  omapRmKeys o.omap (liftMatches (o.omap.map Prod.fst) nodeids)⟩ := by
              simp [graceLift, liftPrep, hm, hh, hr0, hk0, hcnt, runOp,
                applyWop, omapSetEmpty]
            rw [hgl]
            have hm' : ¬ (MAX_ITEMS <
                (omapRmKeys o.omap
                  (liftMatches (o.omap.map Prod.fst) nodeids)).length) := by
              apply not_lt.mpr
              exact le_trans (List.length_filter_le _ _) (not_lt.mp hm)
            have hh' : headerOf
                (⟨o.data,
                  omapRmKeys o.omap (liftMatches (o.omap.map Prod.fst) nodeids)⟩ : GObj) =
                some (cur, rec) := hh
            have hk0' : (liftMatches
                ((omapRmKeys o.omap
                  (liftMatches (o.omap.map Prod.fst) nodeids)).map Prod.fst)
                nodeids).length = 0 := by
              rw [liftMatches_eq_nil]
              · rfl
              · intro x hx hxns
                obtain ⟨e, he, rfl⟩ := List.mem_map.mp hx
                unfold omapRmKeys at he
                have hef := List.mem_filter.mp he
                have hin : e.1 ∈ liftMatches (o.omap.map Prod.fst) nodeids :=
                  (mem_liftMatches _ _ _).mpr
                    ⟨List.mem_map_of_mem _ hef.1, hxns⟩
                simp [hin] at hef
            simp [graceLift, liftPrep, hm', hh', hr0, hk0', runOp]

/-! ## Hex rendering lemmas -/

theorem hexCharVal_hexDigitChar (m : Nat) (h : m < 16) :
    hexCharVal (hexDigitChar m) = m := by
  interval_cases m <;> decide

theorem hexDigitChar_mem (m : Nat) (h : m < 16) :
    hexDigitChar m ∈ "0123456789abcdef".data := by
  interval_cases m <;> decide

theorem hexChars_length (k n : Nat) : (hexChars k n).length = k := by
  induction k generalizing n with
  | zero => rfl
  | succ k ih => simp [hexChars, ih]

theorem hexVal_append_digit (cs : List Char) (d : Char) :
    hexVal (cs ++ [d]) = hexVal cs * 16 + hexCharVal d := by
  simp [hexVal, List.foldl_append]

theorem hexVal_hexChars (k n : Nat) : hexVal (hexChars k n) = n % 16 ^ k := by
  induction k generalizing n with
  | zero => simp [hexChars, hexVal, Nat.mod_one]
  | succ k ih =>
    rw [hexChars, hexVal_append_digit, ih,
      hexCharVal_hexDigitChar _ (Nat.mod_lt _ (by norm_num))]
    have hm : n % (16 * 16 ^ k) = n % 16 + 16 * (n / 16 % 16 ^ k) := Nat.mod_mul
    rw [pow_succ, mul_comm ((16 : Nat) ^ k) 16, hm]
    omega

theorem hexChars_mem (k n : Nat) :
    ∀ ch ∈ hexChars k n, ch ∈ "0123456789abcdef".data := by
  induction k generalizing n with
  | zero => intro ch hch; simp [hexChars] at hch
  | succ k ih =>
    intro ch hch
    rw [hexChars] at hch
    rcases List.mem_append.mp hch with h1 | h2
    · exact ih _ _ h1
    · have hd : ch = hexDigitChar (n % 16) := by simpa using h2
      rw [hd]
      exact hexDigitChar_mem _ (Nat.mod_lt _ (by norm_num))

theorem formatRecovOid_eq (e : Nat) (nodeid : String)
    (h : nodeid.length ≤ 234) :
    formatRecovOid e nodeid = "rec-" ++ hex16 e ++ ":" ++ nodeid := by
  unfold formatRecovOid snprintfStr RADOS_RECOV_OID_BUFSZ
  have hdlen : ("rec-" ++ hex16 e ++ ":" ++ nodeid).data.length ≤ 255 := by
    have h16 : (hex16 e).data.length = 16 := hexChars_length 16 e
    have hn : nodeid.data.length = nodeid.length := rfl
    simp only [String.data_append, List.length_append, h16, List.length_cons,
      List.length_nil]
    omega
  rw [List.take_of_length_le (by omega)]

/-- C9: after the join performed by `read_clids` returns `(C, R)`, the
backend sets `recov_oid` to `"rec-"` followed by `C` rendered as exactly 16
lowercase zero-padded hex digits, a `':'` and the node identifier, and
`recov_old_oid` to the same form with `R` in place of `C` (node identifiers
long enough to overflow the 256-byte buffers aside).  The hex rendering is
faithful: 16 characters, all lowercase hex digits, denoting `C mod 2^64`
(resp. `R mod 2^64`). -/
theorem C9_recov_oid_format (c r : Nat) (nodeid : String)
    (hlen : nodeid.length ≤ 234) :
    readClidsOids c r nodeid =
      ("rec-" ++ hex16 c ++ ":" ++ nodeid,
        "rec-" ++ hex16 r ++ ":" ++ nodeid) ∧
    (hex16 c).length = 16 ∧ (hex16 r).length = 16 ∧
    (∀ ch ∈ (hex16 c).data, ch ∈ "0123456789abcdef".data) ∧
    (∀ ch ∈ (hex16 r).data, ch ∈ "0123456789abcdef".data) ∧
    hexVal (hex16 c).data = c % U64MOD ∧
    hexVal (hex16 r).data = r % U64MOD := by
  have h16 : ((16 : Nat) ^ 16) = U64MOD := by norm_num [U64MOD]
  refine ⟨?_, hexChars_length 16 c, hexChars_length 16 r,
    hexChars_mem 16 c, hexChars_mem 16 r, ?_, ?_⟩
  · unfold readClidsOids
    rw [formatRecovOid_eq c nodeid hlen, formatRecovOid_eq r nodeid hlen]
  · rw [show (hex16 c).data = hexChars 16 c from rfl, hexVal_hexChars, h16]
  · rw [show (hex16 r).data = hexChars 16 r from rfl, hexVal_hexChars, h16]

/-- Witness for C9 at `(C, R) = (2, 1)` and node `"nodeA"`. -/
theorem C9_witness :
    readClidsOids 2 1 "nodeA" =
      ("rec-" ++ hex16 2 ++ ":" ++ "nodeA",
        "rec-" ++ hex16 1 ++ ":" ++ "nodeA") ∧
    (hex16 2).length = 16 ∧ (hex16 1).length = 16 ∧
    (∀ ch ∈ (hex16 2).data, ch ∈ "0123456789abcdef".data) ∧
    (∀ ch ∈ (hex16 1).data, ch ∈ "0123456789abcdef".data) ∧
    hexVal (hex16 2).data = 2 % U64MOD ∧
    hexVal (hex16 1).data = 1 % U64MOD :=
  C9_recov_oid_format 2 1 "nodeA" (by decide)

/-! ## CAS interleaving lemmas -/

theorem casAttempt_eq_or (s snap : VObj) (v : Verb) :
    casAttempt s snap v = s ∨
    (snap.ver = s.ver ∧ ∃ cr w, prepVerb snap.obj v = .ok (cr, some w) ∧
      casAttempt s snap v = ⟨applyWop w s.obj, s.ver + 1⟩) := by
  unfold casAttempt
  cases hp : prepVerb snap.obj v with
  | error e => left; rfl
  | ok pr =>
    obtain ⟨cr, wo⟩ := pr
    cases wo with
    | none => left; rfl
    | some w =>
      by_cases hv : snap.ver = s.ver
      · right
        exact ⟨hv, cr, w, rfl, by simp [hv]⟩
      · left; simp [hv]

theorem GReach_head_prop (s0 : VObj) (l : List VObj) (hr : GReach s0 l) :
    ∀ cur h, l = cur :: h →
      ∀ x ∈ l, x.ver ≤ cur.ver ∧ (x.ver = cur.ver → x = cur) := by
  induction hr with
  | init =>
    intro cur h hl x hx
    injection hl with e1 e2
    subst e1
    subst e2
    simp only [List.mem_singleton] at hx
    subst hx
    exact ⟨le_refl _, fun _ => rfl⟩
  | step hr' hsnap ih =>
    rename_i h' cur' snap' v'
    intro cur h hl x hx
    injection hl with e1 e2
    subst e1
    subst e2
    rcases casAttempt_eq_or cur' snap' v' with he | ⟨hv, cr, w, hp, hca⟩
    · rcases List.mem_cons.mp hx with rfl | hx'
      · exact ⟨le_refl _, fun _ => rfl⟩
      · have hx2 := ih cur' h' rfl x hx'
        rw [he]
        exact hx2
    · rcases List.mem_cons.mp hx with rfl | hx'
      · exact ⟨le_refl _, fun _ => rfl⟩
      · have hx2 := ih cur' h' rfl x hx'
        rw [hca]
        refine ⟨le_trans hx2.1 (Nat.le_succ _), ?_⟩
        intro hxe
        exfalso
        have h1 := hx2.1
        have h2 : (⟨applyWop w cur'.obj, cur'.ver + 1⟩ : VObj).ver = cur'.ver + 1 := rfl
        rw [h2] at hxe
        omega

theorem GReach_snap_fresh (s0 : VObj) (h : List VObj) (cur snap : VObj)
    (hr : GReach s0 (cur :: h)) (hs : snap ∈ cur :: h)
    (hv : snap.ver = cur.ver) : snap = cur :=
  (GReach_head_prop s0 _ hr cur h rfl snap hs).2 hv

/-- C6: under any interleaving of concurrent verbs on the shared object (a
reachable history of honest CAS attempts), with the current state's header
decoding to `(c, r)`: (i) any attempt that changes the state used a snapshot
equal to the current state — the `assert_version(ver)` guard lets only a
caller whose read saw the current state commit; (ii) an attempt with a stale
version token commits nothing (it fails with `-ERANGE` and must retry from a
fresh read); (iii) a transition of `R` from `0` to non-zero happens exactly
at a committed start with the force flag set, taken from a fresh snapshot,
and it performs the epoch advancement `R ← C, C ← C + 1` (u64); (iv) a
start/join attempt while `R ≠ 0` never changes the header, so `C` is never
incremented twice for one `R = 0 → R ≠ 0` transition. -/
theorem C6_cas_epoch_advance_once (s0 : VObj) (h : List VObj) (cur snap : VObj)
    (v : Verb) (hr : GReach s0 (cur :: h)) (hs : snap ∈ cur :: h)
    (c r : Nat) (hc : c < U64MOD) (hru : r < U64MOD)
    (hdata : cur.obj.data = encodeHeader c r) :
    (casAttempt cur snap v ≠ cur → snap = cur) ∧
    (snap.ver ≠ cur.ver → casAttempt cur snap v = cur) ∧
    (∀ c' r', headerOf (casAttempt cur snap v).obj = some (c', r') →
      r = 0 → r' ≠ 0 →
      snap = cur ∧ c' = (c + 1) % U64MOD ∧ r' = c ∧
        ∃ ns, v = Verb.start ns true) ∧
    (r ≠ 0 → ∀ ns f, v = Verb.start ns f →
      headerOf (casAttempt cur snap v).obj = some (c, r)) := by
  have hho := headerOf_data_lt hdata hc hru
  refine ⟨?_, ?_, ?_, ?_⟩
  · intro hne
    rcases casAttempt_eq_or cur snap v with he | ⟨hv, _, _, _, _⟩
    · exact absurd he hne
    · exact GReach_snap_fresh s0 h cur snap hr hs hv
  · intro hvne
    rcases casAttempt_eq_or cur snap v with he | ⟨hv, _, _, _, _⟩
    · exact he
    · exact absurd hv hvne
  · intro c' r' hhdr hr0 hr'ne
    subst hr0
    by_cases hne : casAttempt cur snap v = cur
    · exfalso
      rw [hne] at hhdr
      rw [hho] at hhdr
      simp only [Option.some.injEq, Prod.mk.injEq] at hhdr
      exact hr'ne hhdr.2.symm
    · rcases casAttempt_eq_or cur snap v with he | ⟨hv, cr2, w, hp, hca⟩
      · exact absurd he hne
      have hsc : snap = cur := GReach_snap_fresh s0 h cur snap hr hs hv
      subst hsc
      cases v with
      | lift ns =>
        exfalso
        have hlp : liftPrep snap.obj ns = .ok ((c, 0), none) ∨
            liftPrep snap.obj ns = .error .Corrupt := by
          unfold liftPrep
          rw [hho]
          by_cases hm : MAX_ITEMS < snap.obj.omap.length
          · right; simp [hm]
          · by_cases he : snap.obj.omap.isEmpty
            · left; simp [hm, he]
            · right; simp [hm, he]
        rw [show prepVerb snap.obj (Verb.lift ns) = liftPrep snap.obj ns
          from rfl] at hp
        rcases hlp with h1 | h1 <;> rw [h1] at hp
        · exact Option.noConfusion (congrArg Prod.snd (Except.ok.inj hp))
        · exact Except.noConfusion hp
      | start ns f =>
        cases f with
        | false =>
          exfalso
          have hsp : startPrep snap.obj ns false = .ok ((c, 0), none) := by
            unfold startPrep
            rw [hho]
            simp
          rw [show prepVerb snap.obj (Verb.start ns false) =
            startPrep snap.obj ns false from rfl, hsp] at hp
          exact Option.noConfusion (congrArg Prod.snd (Except.ok.inj hp))
        | true =>
          have hsp : startPrep snap.obj ns true =
              .ok (((c + 1) % U64MOD, c),
                some ⟨some (encodeHeader ((c + 1) % U64MOD) c), ns, []⟩) := by
            unfold startPrep
            rw [hho]
            simp
          rw [show prepVerb snap.obj (Verb.start ns true) =
            startPrep snap.obj ns true from rfl, hsp] at hp
          have hw : w = ⟨some (encodeHeader ((c + 1) % U64MOD) c), ns, []⟩ :=
            (Option.some.inj (congrArg Prod.snd (Except.ok.inj hp))).symm
          have hdr2 : headerOf (applyWop w snap.obj) =
              some ((c + 1) % U64MOD % U64MOD, c % U64MOD) := by
            apply headerOf_data
            rw [hw]
            rfl
          rw [hca] at hhdr
          have hob : (⟨applyWop w snap.obj, snap.ver + 1⟩ : VObj).obj =
              applyWop w snap.obj := rfl
          rw [hob, hdr2] at hhdr
          simp only [Option.some.injEq, Prod.mk.injEq] at hhdr
          have hmod : (c + 1) % U64MOD % U64MOD = (c + 1) % U64MOD :=
            Nat.mod_eq_of_lt (Nat.mod_lt _ (by norm_num [U64MOD]))
          refine ⟨rfl, ?_, ?_, ⟨ns, rfl⟩⟩
          · rw [← hhdr.1, hmod]
          · rw [← hhdr.2, Nat.mod_eq_of_lt hc]
  · intro hrne ns f hv
    subst hv
    by_cases hvv : snap.ver = cur.ver
    · have hsc : snap = cur := GReach_snap_fresh s0 h cur snap hr hs hvv
      subst hsc
      have hprep : prepVerb snap.obj (Verb.start ns f) =
          .ok ((c, r), some ⟨none, ns, []⟩) := by
        unfold prepVerb startPrep
        rw [hho]
        simp [hrne]
      unfold casAttempt
      rw [hprep]
      simp only [reduceIte]
      have hob : (applyWop ⟨none, ns, []⟩ snap.obj).data = snap.obj.data := rfl
      show headerOf (applyWop ⟨none, ns, []⟩ snap.obj) = some (c, r)
      unfold headerOf
      rw [hob]
      exact hho
    · have hres : casAttempt cur snap (Verb.start ns f) = cur := by
        unfold casAttempt
        cases hp : prepVerb snap.obj (Verb.start ns f) with
        | error e => rfl
        | ok pr =>
          obtain ⟨cr2, wo⟩ := pr
          cases wo with
          | none => rfl
          | some w => simp [hvv]
      rw [hres]
      exact hho

/-- Witness for C6: the initial history of the freshly created object, a
fresh snapshot, and a forced start by node `"A"`. -/
theorem C6_witness :
    (casAttempt ⟨⟨encodeHeader 1 0, []⟩, 0⟩ ⟨⟨encodeHeader 1 0, []⟩, 0⟩
        (Verb.start ["A"] true) ≠ ⟨⟨encodeHeader 1 0, []⟩, 0⟩ →
      (⟨⟨encodeHeader 1 0, []⟩, 0⟩ : VObj) = ⟨⟨encodeHeader 1 0, []⟩, 0⟩) ∧
    ((⟨⟨encodeHeader 1 0, []⟩, 0⟩ : VObj).ver ≠
        (⟨⟨encodeHeader 1 0, []⟩, 0⟩ : VObj).ver →
      casAttempt ⟨⟨encodeHeader 1 0, []⟩, 0⟩ ⟨⟨encodeHeader 1 0, []⟩, 0⟩
        (Verb.start ["A"] true) = ⟨⟨encodeHeader 1 0, []⟩, 0⟩) ∧
    (∀ c' r', headerOf (casAttempt ⟨⟨encodeHeader 1 0, []⟩, 0⟩
        ⟨⟨encodeHeader 1 0, []⟩, 0⟩ (Verb.start ["A"] true)).obj =
          some (c', r') →
      0 = 0 → r' ≠ 0 →
      (⟨⟨encodeHeader 1 0, []⟩, 0⟩ : VObj) = ⟨⟨encodeHeader 1 0, []⟩, 0⟩ ∧
        c' = (1 + 1) % U64MOD ∧ r' = 1 ∧
        ∃ ns, Verb.start ["A"] true = Verb.start ns true) ∧
    ((0 : Nat) ≠ 0 → ∀ ns f, Verb.start ["A"] true = Verb.start ns f →
      headerOf (casAttempt ⟨⟨encodeHeader 1 0, []⟩, 0⟩
        ⟨⟨encodeHeader 1 0, []⟩, 0⟩ (Verb.start ["A"] true)).obj =
          some (1, 0)) :=
  C6_cas_epoch_advance_once ⟨⟨encodeHeader 1 0, []⟩, 0⟩ []
    ⟨⟨encodeHeader 1 0, []⟩, 0⟩ ⟨⟨encodeHeader 1 0, []⟩, 0⟩
    (Verb.start ["A"] true) GReach.init (List.mem_singleton.mpr rfl)
    1 0 (by norm_num [U64MOD]) (by norm_num [U64MOD]) rfl
